import Mathlib

set_option maxRecDepth 100000

/-
Verification development for the SAAB_HPD serial display driver
(src/SAAB_HPD.h, src/SAAB_HPD.cpp).

Shallow embedding conventions:
  - uint8_t values are Nat with explicit % 256 exactly where the C code's
    8-bit arithmetic can wrap (expectedLength, bufferIndex, frame.dlc
    accumulation in makeRegion/changeRegion).
  - The 255-byte receive buffer (BUFFER_SIZE = 0xFF) is a List Nat of
    length 255.  A C access at index >= 255 is out of bounds; the model
    records it in the `oob` flag (List.set beyond the length is a no-op,
    List.getD yields 0 there) so that safety claims can observe it.
  - frame.data (a 252-byte array in C) is modelled as the list of the
    dlc - 2 received payload bytes on the receive side; the C code memsets
    frame.data to 0 before copying, so a read data[i] with i >= dlc - 2
    yields 0, which List.getD's default 0 reproduces.
  - The serial link is a list of bytes: input bytes are consumed in order;
    written bytes are returned as a list.  readSIDserialData returns on the
    first completed frame leaving the rest of the stream for the next call,
    and all of its state (syncFound, bufferIndex, expectedLength, buffer,
    the static syncIndex) persists between calls, so driving the state
    machine over a whole byte list and collecting every emitted frame
    models any sequence of calls consuming that list.
  - The 100 ms deadline of sendSidData is modelled by the byte list handed
    to the wait loop: it holds exactly the bytes that arrive before the
    deadline, and exhausting it is the timeout.
-/

/-- Sync pattern for SID communication (SAAB_HPD.h line 35). -/
def syncPattern : List Nat := [0x02, 0x81, 0x00, 0x83]

/-- syncPatternLength = sizeof(syncPattern) (SAAB_HPD.h line 36). -/
def syncPatternLength : Nat := 4

/-- The SerialFrame struct (SAAB_HPD.h lines 41-47).  `data` holds the
payload bytes (length dlc - 2 for received frames). -/
structure SerialFrame where
  dlc : Nat
  command : Nat
  data : List Nat
  checksum : Nat
deriving DecidableEq, Repr

/-- ERROR enum (SAAB_HPD.h lines 58-66) as the underlying C int:
ERROR_OK = 0, ERROR_TIMEOUT = -1, and static_cast<ERROR>(b) is the byte
value itself. -/
def ERROR_OK : Int := 0

/-- ERROR_TIMEOUT = -1 (SAAB_HPD.h line 60). -/
def ERROR_TIMEOUT : Int := -1

/-- State of readSIDserialData (fields of SAAB_HPD plus the static
syncIndex, SAAB_HPD.h lines 104-107 and SAAB_HPD.cpp line 182).
`oob` instruments the model: it becomes true when the C code would access
buffer[i] with i >= 255 (the array has indices 0..254). -/
structure SyncState where
  syncIndex : Nat
  syncFound : Bool
  bufferIndex : Nat
  expectedLength : Nat
  buffer : List Nat
  oob : Bool
deriving DecidableEq, Repr

/-- Constructor state (SAAB_HPD.cpp line 6): bufferIndex 0,
expectedLength 0, syncFound false; the uninitialized buffer is modelled
as zeros (its bytes are always written before being read on every path
that completes a frame). -/
def initState : SyncState :=
  { syncIndex := 0, syncFound := false, bufferIndex := 0,
    expectedLength := 0, buffer := List.replicate 255 0, oob := false }

/-- isValidDLC (SAAB_HPD.cpp lines 167-169): dlc in 0x01..0xFE. -/
def isValidDLC (dlc : Nat) : Bool :=
  decide (0 < dlc) && decide (dlc < 0xFF)

/-- The summation loop of calculateChecksum (SAAB_HPD.cpp lines 151-153):
adds data[i] for i < n (reads beyond the list yield the memset default 0). -/
def sumData (data : List Nat) : Nat → Nat
  | 0 => 0
  | n + 1 => sumData data n + data.getD n 0

/-- calculateChecksum (SAAB_HPD.cpp lines 147-156): LSB of
dlc + command + sum of the first dlc - 2 data bytes.  The C uint16_t
accumulator cannot wrap (at most 255 + 255 + 253 * 255 < 65536), so a Nat
sum taken % 256 at the end is exact. -/
def calculateChecksum (f : SerialFrame) : Nat :=
  (f.dlc + f.command + sumData f.data (f.dlc - 2)) % 256

/-- verifyChecksum (SAAB_HPD.cpp lines 133-145). -/
def verifyChecksum (f : SerialFrame) : Bool :=
  calculateChecksum f == f.checksum

/-- Frame population from the assembly buffer on frame completion
(SAAB_HPD.cpp lines 223-228): command from buffer[1], data from
buffer[3..dlc], checksum from buffer[dlc + 1]; data is empty when
dlc <= 2 (the memcpy is guarded by dlc > 2). -/
def assembleFrame (buf : List Nat) : SerialFrame :=
  let dlc := buf.getD 0 0
  { dlc := dlc
    command := buf.getD 1 0
    data := (List.range (dlc - 2)).map (fun j => buf.getD (3 + j) 0)
    checksum := buf.getD (dlc + 1) 0 }

/-- One iteration of the while loop of readSIDserialData
(SAAB_HPD.cpp lines 184-241) on one received byte: sync search, DLC
validation, accumulation, frame completion with checksum check.
bufferIndex is a uint8_t, hence the % 256 on its increment;
expectedLength is a uint8_t, hence the % 256 on dlc + 2 (this is the wrap
that makes dlc = 0xFE overrun the buffer).  The emitted frame corresponds
to readSIDserialData returning true. -/
def step (s : SyncState) (b : Nat) : SyncState × Option SerialFrame :=
  if s.syncFound = false then
    if b = syncPattern.getD s.syncIndex 0 then
      if s.syncIndex + 1 = syncPatternLength then
        ({ s with syncFound := true, bufferIndex := 0, syncIndex := 0 }, none)
      else
        ({ s with syncIndex := s.syncIndex + 1 }, none)
    else
      ({ s with syncIndex := 0 }, none)
  else if s.bufferIndex = 0 then
    if isValidDLC b then
      ({ s with buffer := s.buffer.set 0 b, bufferIndex := 1,
                expectedLength := (b + 2) % 256 }, none)
    else
      ({ s with syncFound := false }, none)
  else
    let i := s.bufferIndex
    let buf := s.buffer.set i b
    let oob1 := s.oob || decide (255 ≤ i)
    let bi := (i + 1) % 256
    if bi = s.expectedLength then
      let f := assembleFrame buf
      let oob2 := oob1 || decide (255 ≤ f.dlc + 1)
      if verifyChecksum f then
        ({ s with buffer := buf, bufferIndex := 0, oob := oob2 }, some f)
      else
        ({ s with buffer := buf, bufferIndex := 0, syncFound := false,
                  oob := oob2 }, none)
    else
      ({ s with buffer := buf, bufferIndex := bi, oob := oob1 }, none)

/-- Drives readSIDserialData over a byte list, collecting every frame it
returns (repeated calls share all state, so this models any sequence of
calls that together consume the list). -/
def runSync (s : SyncState) : List Nat → SyncState × List SerialFrame
  | [] => (s, [])
  | b :: rest =>
    match step s b with
    | (s1, none) => runSync s1 rest
    | (s1, some f) =>
      let r := runSync s1 rest
      (r.1, f :: r.2)

/-- strlen on a NUL-terminated byte sequence (the C string / the
frame.data array scanned by strlen in SAAB_HPD.cpp line 42): number of
bytes before the first 0x00; the end of the modelled list acts as the
terminator. -/
def cstrlen : List Nat → Nat
  | [] => 0
  | b :: rest => if b = 0 then 0 else cstrlen rest + 1

/-- The transmit path of sendSidData (SAAB_HPD.cpp lines 39-57): DLC
recomputed as 2 + strlen(data) when it is 0 (truncated to uint8_t),
checksum recomputed, then the bytes written to the serial link:
DLC, command, a 0x00 padding byte only when dlc >= 2, the first dlc - 2
data bytes, and the checksum. -/
def sendSidDataBytes (dlc cmd : Nat) (data : List Nat) : List Nat :=
  let d := if dlc = 0 then (2 + cstrlen data) % 256 else dlc
  let chk := (d + cmd + sumData data (d - 2)) % 256
  [d, cmd] ++ (if 2 ≤ d then [0] else []) ++
    (List.range (d - 2)).map (fun i => data.getD i 0) ++ [chk]

/-- The spec's encode(command, payload): the bytes sendSidData writes for
a frame whose dlc is already set to payload length + 2. -/
def encode (cmd : Nat) (payload : List Nat) : List Nat :=
  sendSidDataBytes (payload.length + 2) cmd payload

/-- Response qualification in the wait loop of sendSidData
(SAAB_HPD.cpp lines 75-79): an ACK is command 0xFF with dlc 0x02, an
error frame is command 0xFE. -/
def isQualResponse (f : SerialFrame) : Bool :=
  (f.command == 0xFF && f.dlc == 2) || f.command == 0xFE

/-- The wait loop of sendSidData (SAAB_HPD.cpp lines 70-84) over the bytes
arriving before the 100 ms deadline: first frame with command 0xFF and
dlc 0x02 returns ERROR_OK, first frame with command 0xFE returns
static_cast<ERROR>(data[0]); exhausting the input is the timeout. -/
def sendSidDataAwait (s : SyncState) : List Nat → Int
  | [] => ERROR_TIMEOUT
  | b :: rest =>
    match step s b with
    | (s1, none) => sendSidDataAwait s1 rest
    | (s1, some f) =>
      if f.command = 0xFF ∧ f.dlc = 2 then ERROR_OK
      else if f.command = 0xFE then ((f.data.getD 0 0 : Nat) : Int)
      else sendSidDataAwait s1 rest

/-- Writes the bytes of `ms` into `l` at consecutive positions starting at
`i` (the accumulation writes buffer[bufferIndex++] = byte of successive
loop iterations). -/
def setList (l : List Nat) (i : Nat) : List Nat → List Nat
  | [] => l
  | b :: rest => setList (l.set i b) (i + 1) rest

theorem getD_set_self (l : List Nat) (i a : Nat) (h : i < l.length) :
    (l.set i a).getD i 0 = a := by
  simp [List.getD_eq_getElem?_getD, List.getElem?_set, h]

theorem getD_set_ne (l : List Nat) (a : Nat) {i j : Nat} (h : i ≠ j) :
    (l.set i a).getD j 0 = l.getD j 0 := by
  simp [List.getD_eq_getElem?_getD, List.getElem?_set, h]

theorem setList_length (ms : List Nat) : ∀ (l : List Nat) (i : Nat),
    (setList l i ms).length = l.length := by
  induction ms with
  | nil => intro l i; rfl
  | cons b rest ih => intro l i; simp [setList, ih]

theorem setList_getD_lt (ms : List Nat) : ∀ (l : List Nat) (i j : Nat), j < i →
    (setList l i ms).getD j 0 = l.getD j 0 := by
  induction ms with
  | nil => intro l i j _; rfl
  | cons b rest ih =>
    intro l i j hj
    rw [setList, ih _ _ _ (Nat.lt_succ_of_lt hj), getD_set_ne _ _ (by omega)]

theorem setList_getD_mid (ms : List Nat) : ∀ (l : List Nat) (i j : Nat),
    i ≤ j → j < i + ms.length → j < l.length →
    (setList l i ms).getD j 0 = ms.getD (j - i) 0 := by
  induction ms with
  | nil => intro l i j h1 h2 _; simp at h2; omega
  | cons b rest ih =>
    intro l i j h1 h2 h3
    rcases Nat.eq_or_lt_of_le h1 with heq | hlt
    · subst heq
      rw [setList, setList_getD_lt _ _ _ _ (Nat.lt_succ_self i),
        getD_set_self _ _ _ h3]
      simp
    · rw [setList, ih _ _ _ hlt (by simp at h2 ⊢; omega) (by simpa using h3)]
      have hd : j - i = (j - (i + 1)) + 1 := by omega
      rw [hd]
      rfl

theorem range_map_getD_take (l : List Nat) (n : Nat) (h : n ≤ l.length) :
    (List.range n).map (fun i => l.getD i 0) = l.take n := by
  apply List.ext_getElem
  · simp [Nat.min_eq_left h]
  · intro i h1 h2
    simp only [List.getElem_map, List.getElem_range, List.getElem_take]
    have hi : i < l.length := by simp at h1; omega
    rw [List.getD_eq_getElem?_getD, List.getElem?_eq_getElem hi, Option.getD_some]

theorem sumData_eq_sum_take (l : List Nat) (n : Nat) :
    sumData l n = (l.take n).sum := by
  induction n with
  | zero => simp [sumData]
  | succ n ih =>
    rw [sumData, ih, List.take_succ]
    cases h : l[n]? with
    | none => simp [h, List.getD_eq_getElem?_getD]
    | some a => simp [h, List.getD_eq_getElem?_getD]

theorem sumData_length (l : List Nat) : sumData l l.length = l.sum := by
  rw [sumData_eq_sum_take, List.take_length]

theorem cstrlen_le_length (l : List Nat) : cstrlen l ≤ l.length := by
  induction l with
  | nil => simp [cstrlen]
  | cons b rest ih =>
    by_cases hb : b = 0
    · simp [cstrlen, hb]
    · simp [cstrlen, hb]; omega

theorem takeWhile_eq_take_cstrlen (l : List Nat) :
    l.takeWhile (fun b => !(b == 0)) = l.take (cstrlen l) := by
  induction l with
  | nil => rfl
  | cons b rest ih =>
    by_cases hb : b = 0
    · subst hb; simp [cstrlen, List.takeWhile_cons]
    · simp [cstrlen, hb, List.takeWhile_cons, ih]

theorem runSync_accum (ms : List Nat) : ∀ (s : SyncState),
    s.syncFound = true → 1 ≤ s.bufferIndex →
    s.bufferIndex + ms.length < s.expectedLength → s.expectedLength ≤ 255 →
    runSync s ms
      = ({ s with
            buffer := setList s.buffer s.bufferIndex ms,
            bufferIndex := s.bufferIndex + ms.length }, []) := by
  induction ms with
  | nil =>
    intro s h1 h2 h3 h4
    simp [runSync, setList]
  | cons b rest ih =>
    intro s h1 h2 h3 h4
    rw [List.length_cons] at h3
    have h0 : ¬ s.bufferIndex = 0 := by omega
    have hdec : decide (255 ≤ s.bufferIndex) = false := decide_eq_false (by omega)
    have hmod : (s.bufferIndex + 1) % 256 = s.bufferIndex + 1 :=
      Nat.mod_eq_of_lt (by omega)
    have hne : ¬ (s.bufferIndex + 1) % 256 = s.expectedLength := by
      rw [hmod]; omega
    have hne2 : ¬ s.bufferIndex + 1 = s.expectedLength := by omega
    have hstep : step s b
        = ({ s with
              buffer := s.buffer.set s.bufferIndex b,
              bufferIndex := s.bufferIndex + 1 }, none) := by
      simp [step, h1, h0, hne, hne2, hmod, hdec]
    have harr : s.bufferIndex + (rest.length + 1)
        = (s.bufferIndex + 1) + rest.length := by omega
    rw [runSync, hstep]
    dsimp only
    rw [ih _ (by simp [h1]) (by simp) (by simp; omega) (by simp [h4])]
    rw [show setList s.buffer s.bufferIndex (b :: rest)
          = setList (s.buffer.set s.bufferIndex b) (s.bufferIndex + 1) rest
        from rfl]
    simp [harr]

theorem step_complete (s : SyncState) (b : Nat)
    (h1 : s.syncFound = true) (h2 : ¬ s.bufferIndex = 0)
    (h3 : s.bufferIndex + 1 ≤ 255)
    (hE : s.expectedLength = s.bufferIndex + 1)
    (hv : verifyChecksum (assembleFrame (s.buffer.set s.bufferIndex b)) = true) :
    step s b
      = ({ s with
            buffer := s.buffer.set s.bufferIndex b,
            bufferIndex := 0,
            oob := s.oob ||
              decide (255 ≤ (assembleFrame (s.buffer.set s.bufferIndex b)).dlc + 1) },
         some (assembleFrame (s.buffer.set s.bufferIndex b))) := by
  have hdec : decide (255 ≤ s.bufferIndex) = false := decide_eq_false (by omega)
  have hmod : (s.bufferIndex + 1) % 256 = s.bufferIndex + 1 :=
    Nat.mod_eq_of_lt (by omega)
  simp [step, h1, h2, hdec, hmod, hE, hv]

theorem runSync_append (xs : List Nat) : ∀ (s : SyncState) (ys : List Nat),
    runSync s (xs ++ ys)
      = ((runSync (runSync s xs).1 ys).1,
         (runSync s xs).2 ++ (runSync (runSync s xs).1 ys).2) := by
  induction xs with
  | nil => intro s ys; simp [runSync]
  | cons b xs ih =>
    intro s ys
    simp only [List.cons_append, runSync]
    rcases h : step s b with ⟨s1, f⟩
    cases f <;> simp [h, ih]

theorem encode_eq (c : Nat) (p : List Nat) :
    encode c p
      = (p.length + 2) :: c :: 0 :: (p ++ [(p.length + 2 + c + p.sum) % 256]) := by
  have h0 : ¬ p.length + 2 = 0 := by omega
  have hd : p.length + 2 - 2 = p.length := by omega
  simp only [encode, sendSidDataBytes, if_neg h0, hd,
    range_map_getD_take p p.length le_rfl, List.take_length, sumData_length,
    if_pos (by omega : 2 ≤ p.length + 2)]
  simp

/-- C1: round-trip.  For any command byte and payload of at most 250
bytes, feeding the sync pattern followed by the bytes sendSidData writes
for that command and payload through readSIDserialData yields exactly one
frame, whose DLC, command, payload and checksum are those of the input. -/
theorem c1_roundtrip (c : Nat) (p : List Nat) (hc : c < 256)
    (hp : ∀ b ∈ p, b < 256) (hl : p.length ≤ 250) :
    (runSync initState (syncPattern ++ encode c p)).2
      = [{ dlc := p.length + 2, command := c, data := p,
           checksum := (p.length + 2 + c + p.sum) % 256 }] := by
  have hsync : runSync initState syncPattern
      = ({ initState with syncFound := true }, []) := by decide
  rw [runSync_append, hsync]
  dsimp only
  rw [List.nil_append]
  rw [encode_eq]
  rw [show (p.length + 2) :: c :: 0 :: (p ++ [(p.length + 2 + c + p.sum) % 256])
        = [p.length + 2] ++ (([c, 0] ++ p) ++ [(p.length + 2 + c + p.sum) % 256])
      from by simp]
  rw [runSync_append]
  have hvalid : isValidDLC (p.length + 2) = true := by
    simp [isValidDLC]; omega
  have hmodE : (p.length + 2 + 2) % 256 = p.length + 4 :=
    Nat.mod_eq_of_lt (by omega)
  have hA : runSync ({ initState with syncFound := true }) [p.length + 2]
      = ({ initState with
            syncFound := true, bufferIndex := 1, expectedLength := p.length + 4,
            buffer := (List.replicate 255 0).set 0 (p.length + 2) }, []) := by
    simp [runSync, step, initState, hvalid, hmodE]
  rw [hA]
  dsimp only
  rw [List.nil_append]
  rw [runSync_append]
  rw [runSync_accum ([c, 0] ++ p) _ rfl (by norm_num) (by simp; omega)
      (by simp; omega)]
  dsimp only
  rw [List.nil_append]
  have hlen255 : (setList ((List.replicate 255 0).set 0 (p.length + 2)) 1
      ([c, 0] ++ p)).length = 255 := by
    rw [setList_length]; simp
  have hbuf0 : ((setList ((List.replicate 255 0).set 0 (p.length + 2)) 1
      ([c, 0] ++ p)).set (1 + ([c, 0] ++ p).length)
        ((p.length + 2 + c + p.sum) % 256)).getD 0 0 = p.length + 2 := by
    rw [getD_set_ne _ _ (by simp), setList_getD_lt _ _ _ _ (by omega),
      getD_set_self _ _ _ (by simp)]
  have hbuf1 : ((setList ((List.replicate 255 0).set 0 (p.length + 2)) 1
      ([c, 0] ++ p)).set (1 + ([c, 0] ++ p).length)
        ((p.length + 2 + c + p.sum) % 256)).getD 1 0 = c := by
    rw [getD_set_ne _ _ (by simp),
      setList_getD_mid _ _ _ _ le_rfl (by simp) (by simp)]
    simp
  have hbufchk : ((setList ((List.replicate 255 0).set 0 (p.length + 2)) 1
      ([c, 0] ++ p)).set (1 + ([c, 0] ++ p).length)
        ((p.length + 2 + c + p.sum) % 256)).getD (p.length + 2 + 1) 0
      = (p.length + 2 + c + p.sum) % 256 := by
    rw [show p.length + 2 + 1 = 1 + ([c, 0] ++ p).length from by simp; omega]
    exact getD_set_self _ _ _ (by rw [hlen255]; simp; omega)
  have hdata : (List.range (p.length + 2 - 2)).map
      (fun j => ((setList ((List.replicate 255 0).set 0 (p.length + 2)) 1
        ([c, 0] ++ p)).set (1 + ([c, 0] ++ p).length)
          ((p.length + 2 + c + p.sum) % 256)).getD (3 + j) 0) = p := by
    rw [show p.length + 2 - 2 = p.length from by omega]
    have hcongr : ∀ j ∈ List.range p.length,
        ((setList ((List.replicate 255 0).set 0 (p.length + 2)) 1
          ([c, 0] ++ p)).set (1 + ([c, 0] ++ p).length)
            ((p.length + 2 + c + p.sum) % 256)).getD (3 + j) 0
          = p.getD j 0 := by
      intro j hj
      rw [List.mem_range] at hj
      rw [getD_set_ne _ _ (by simp; omega),
        setList_getD_mid _ _ _ _ (by omega) (by simp; omega) (by simp; omega)]
      rw [show 3 + j - 1 = j + 2 from by omega]
      simp
    rw [List.map_congr_left hcongr]
    rw [range_map_getD_take p p.length le_rfl, List.take_length]
  have hasm : assembleFrame ((setList ((List.replicate 255 0).set 0
      (p.length + 2)) 1 ([c, 0] ++ p)).set (1 + ([c, 0] ++ p).length)
        ((p.length + 2 + c + p.sum) % 256))
      = { dlc := p.length + 2, command := c, data := p,
          checksum := (p.length + 2 + c + p.sum) % 256 } := by
    simp only [assembleFrame, hbuf0, hbuf1, hdata, hbufchk]
  have hver : verifyChecksum
      { dlc := p.length + 2, command := c, data := p,
        checksum := (p.length + 2 + c + p.sum) % 256 } = true := by
    simp only [verifyChecksum, calculateChecksum]
    rw [show p.length + 2 - 2 = p.length from by omega, sumData_length]
    simp
  rw [runSync]
  rw [step_complete _ _ rfl (by simp) (by simp; omega) (by simp; omega)
      (by rw [hasm]; exact hver)]
  dsimp only
  rw [hasm]
  rfl

/-- Witness for c1_roundtrip: command 0x20 with payload [0x05] round-trips
(dlc 3, checksum (3 + 0x20 + 0x05) mod 256 = 0x28). -/
theorem c1_roundtrip_witness :
    (runSync initState (syncPattern ++ encode 0x20 [0x05])).2
      = [{ dlc := 3, command := 0x20, data := [0x05], checksum := 0x28 }] :=
  c1_roundtrip 0x20 [0x05] (by decide) (by decide) (by decide)

/-- C2 counterexample: a checksum-valid frame with command 0xFF but
dlc 0x03 is decoded within the deadline, yet sendSidData does not return
ERROR_OK (the code also requires dlc == 0x02); with no other traffic it
returns ERROR_TIMEOUT. -/
theorem c2_counterexample :
    sendSidDataAwait initState (syncPattern ++ [0x03, 0xFF, 0x00, 0x00, 0x02])
        = ERROR_TIMEOUT
      ∧ (runSync initState (syncPattern ++ [0x03, 0xFF, 0x00, 0x00, 0x02])).2
        = [{ dlc := 3, command := 0xFF, data := [0], checksum := 2 }] := by
  exact ⟨by decide, by decide⟩

/-- C2 (amended): the wait loop of sendSidData returns ERROR_TIMEOUT when
no qualifying frame (command 0xFF with dlc 0x02, or command 0xFE) is
decoded from the bytes arriving before the deadline; otherwise the first
qualifying frame decides the result: ERROR_OK for an ACK (0xFF and
dlc 0x02), or the first payload byte as the error code for 0xFE (so an
0xFE response carrying payload byte 0x33 yields 0x33). -/
theorem c2_send_await (s : SyncState) (input : List Nat) :
    (((runSync s input).2.filter isQualResponse = []) →
        sendSidDataAwait s input = ERROR_TIMEOUT)
  ∧ (∀ f t, (runSync s input).2.filter isQualResponse = f :: t →
      sendSidDataAwait s input
        = if f.command = 0xFF ∧ f.dlc = 2 then ERROR_OK
          else ((f.data.getD 0 0 : Nat) : Int)) := by
  induction input generalizing s with
  | nil =>
    exact ⟨fun _ => rfl, fun f t h => by simp [runSync] at h⟩
  | cons b rest ih =>
    rcases hstep : step s b with ⟨s1, fo⟩
    cases fo with
    | none =>
      have hrun : runSync s (b :: rest) = runSync s1 rest := by
        rw [runSync, hstep]
      have haw : sendSidDataAwait s (b :: rest) = sendSidDataAwait s1 rest := by
        rw [sendSidDataAwait, hstep]
      rw [hrun, haw]
      exact ih s1
    | some f =>
      have hrun : runSync s (b :: rest)
          = ((runSync s1 rest).1, f :: (runSync s1 rest).2) := by
        rw [runSync, hstep]
      have haw : sendSidDataAwait s (b :: rest)
          = if f.command = 0xFF ∧ f.dlc = 2 then ERROR_OK
            else if f.command = 0xFE then ((f.data.getD 0 0 : Nat) : Int)
            else sendSidDataAwait s1 rest := by
        rw [sendSidDataAwait, hstep]
      rw [hrun, haw]
      dsimp only
      by_cases hq : isQualResponse f = true
      · rw [List.filter_cons_of_pos hq]
        constructor
        · intro h; simp at h
        · intro g t hgt
          injection hgt with hg ht
          subst hg
          by_cases hff : f.command = 0xFF ∧ f.dlc = 2
          · simp [hff]
          · have hfe : f.command = 0xFE := by
              simp [isQualResponse] at hq
              rcases hq with ⟨h1', h2'⟩ | h'
              · exact absurd ⟨h1', h2'⟩ hff
              · exact h'
            simp [hff, hfe]
      · have hq' : ¬ isQualResponse f := by simpa using hq
        rw [List.filter_cons_of_neg hq']
        have hnff : ¬ (f.command = 0xFF ∧ f.dlc = 2) := by
          intro hco
          exact hq (by simp [isQualResponse, hco.1, hco.2])
        have hnfe : ¬ f.command = 0xFE := by
          intro hco
          exact hq (by simp [isQualResponse, hco])
        rw [if_neg hnff, if_neg hnfe]
        exact ih s1

/-- Witness for c2_send_await: a well-formed ACK (dlc 0x02, command 0xFF,
checksum 0x01) is the first qualifying frame and the wait loop returns
ERROR_OK. -/
theorem c2_send_await_witness :
    sendSidDataAwait initState (syncPattern ++ [0x02, 0xFF, 0x00, 0x01])
      = ERROR_OK := by
  have h := (c2_send_await initState (syncPattern ++ [0x02, 0xFF, 0x00, 0x01])).2
    { dlc := 2, command := 0xFF, data := [], checksum := 1 } [] (by decide)
  simpa using h

theorem step_some_syncFound (s : SyncState) (b : Nat)
    (h : ((step s b).2).isSome = true) : ((step s b).1).syncFound = true := by
  rcases hs : step s b with ⟨s1, fo⟩
  rw [hs] at h
  dsimp only
  revert hs
  unfold step
  dsimp only
  repeat' split
  all_goals intro hs
  all_goals injection hs with e1 e2
  all_goals first
    | (subst e2; simp at h; done)
    | (subst e1; simp_all [Bool.not_eq_false])

/-- The input of the C4 scenario: the sync pattern, a second copy of the
sync pattern, then one valid encoded frame (command 0x20, payload [0x05]). -/
def c4Input : List Nat := syncPattern ++ syncPattern ++ encode 0x20 [0x05]

/-- C4 counterexample: sync pattern + sync pattern + one valid frame makes
readSIDserialData emit TWO frames, not one — after a successful emission
syncFound is not reset, so the second sync pattern is itself decoded as a
frame (dlc 0x02, command 0x81, checksum 0x83). -/
theorem c4_counterexample :
    ((runSync initState c4Input).2).length = 2
      ∧ ¬ ((runSync initState c4Input).2).length = 1 := by
  exact ⟨by decide, by decide⟩

/-- C4 (amended): after every successful frame emission the synchronizer
stays in the synchronized state (syncFound remains true) instead of
returning to the searching state, so sync + sync + one valid frame emits
exactly two frames — the second sync pattern itself is decoded as the
frame (dlc 0x02, command 0x81, checksum 0x83) — and the synchronizer is
still synchronized afterwards. -/
theorem c4_amended :
    (∀ (s : SyncState) (b : Nat), ((step s b).2).isSome = true →
        ((step s b).1).syncFound = true)
  ∧ (runSync initState c4Input).2
      = [{ dlc := 2, command := 0x81, data := [], checksum := 0x83 },
         { dlc := 3, command := 0x20, data := [0x05], checksum := 0x28 }]
  ∧ ((runSync initState c4Input).1).syncFound = true := by
  exact ⟨step_some_syncFound, by decide, by decide⟩

/-- Witness for c4_amended: the concrete completing step of the frame in
c4Input emits a frame and leaves syncFound true. -/
def c4WitnessState : SyncState :=
  (runSync initState (syncPattern ++ [0x03, 0x20, 0x00, 0x05])).1

theorem c4_amended_witness :
    ((step c4WitnessState 0x28).1).syncFound = true :=
  c4_amended.1 c4WitnessState 0x28 (by decide)

/-- sendTestModeMessage (SAAB_HPD.cpp lines 114-121): a frame with
dlc 0x01 and command 0x9F (remaining fields zero-initialized by the
designated initializer) handed to sendSidData; these are the bytes it
writes. -/
def sendTestModeMessageBytes : List Nat :=
  sendSidDataBytes 0x01 0x9F (List.replicate 252 0)

/-- C5 counterexample: the test-mode message is not the 4-byte sequence
[0x01, 0x9F, 0x00, 0xA0] — the frame uses dlc 0x01 and the padding-byte
write in sendSidData is guarded by dlc >= 2, so no 0x00 is sent. -/
theorem c5_counterexample :
    ¬ sendTestModeMessageBytes = [0x01, 0x9F, 0x00, 0xA0] := by decide

/-- C5 (amended): sendTestModeMessage writes exactly the three bytes
[0x01, 0x9F, 0xA0]: DLC 0x01, command 0x9F, no padding byte (dlc < 2),
no data bytes, and checksum 0xA0 = (0x01 + 0x9F) & 0xFF. -/
theorem c5_test_mode :
    sendTestModeMessageBytes = [0x01, 0x9F, 0xA0]
      ∧ 0xA0 = (0x01 + 0x9F) % 256 := by
  exact ⟨by decide, by decide⟩

/-- C6: the computed checksum is the low byte of the arithmetic sum of the
DLC byte, the command byte and the first dlc - 2 payload bytes (the wire
padding byte is not a field of the frame struct and is never summed);
concretely, for dlc 0x08, command 0x11 and payload
[0x01, 0x00, 0x02, 0xDF, 0x02, 0x00] it equals
(0x08 + 0x11 + 0x01 + 0x00 + 0x02 + 0xDF + 0x02 + 0x00) & 0xFF. -/
theorem c6_checksum (f : SerialFrame) :
    calculateChecksum f
        = (f.dlc + f.command + (f.data.take (f.dlc - 2)).sum) % 256
      ∧ calculateChecksum
          { dlc := 0x08, command := 0x11,
            data := [0x01, 0x00, 0x02, 0xDF, 0x02, 0x00], checksum := 0 }
        = (0x08 + 0x11 + 0x01 + 0x00 + 0x02 + 0xDF + 0x02 + 0x00) % 256 := by
  exact ⟨by rw [calculateChecksum, sumData_eq_sum_take], by decide⟩

/-- C7: when a fully assembled frame fails checksum verification, the
synchronizer emits nothing, discards the buffered frame (bufferIndex 0)
and resets to the searching state (syncFound false), and processing of any
further input simply continues from that reset state — there is no error
result, the caller only ever sees that no frame was produced. -/
theorem c7_checksum_mismatch (s : SyncState) (b : Nat)
    (h1 : s.syncFound = true) (h2 : ¬ s.bufferIndex = 0)
    (h3 : (s.bufferIndex + 1) % 256 = s.expectedLength)
    (h4 : verifyChecksum (assembleFrame (s.buffer.set s.bufferIndex b)) = false) :
    (step s b).2 = none
  ∧ ((step s b).1).syncFound = false
  ∧ ((step s b).1).bufferIndex = 0
  ∧ ∀ rest, (runSync s (b :: rest)).2 = (runSync ((step s b).1) rest).2 := by
  have hnone : (step s b).2 = none := by simp [step, h1, h2, h3, h4]
  refine ⟨hnone, by simp [step, h1, h2, h3, h4],
    by simp [step, h1, h2, h3, h4], ?_⟩
  intro rest
  rcases hstep : step s b with ⟨s1, fo⟩
  rw [hstep] at hnone
  dsimp only at hnone
  subst hnone
  rw [runSync, hstep]

/-- A state about to complete a frame with dlc 0x02, command 0x55 after
the sync pattern; the next byte is read as the checksum. -/
def c7WitnessState : SyncState :=
  (runSync initState (syncPattern ++ [0x02, 0x55, 0x00])).1

/-- Witness for c7_checksum_mismatch: completing that frame with checksum
byte 0x00 (the correct checksum would be 0x57) emits nothing and resets
to searching. -/
theorem c7_checksum_mismatch_witness :
    (step c7WitnessState 0x00).2 = none
      ∧ ((step c7WitnessState 0x00).1).syncFound = false := by
  have h := c7_checksum_mismatch c7WitnessState 0x00 (by decide) (by decide)
    (by decide) (by decide)
  exact ⟨h.1, h.2.1⟩

/-- The C3 failing input: the sync pattern, then DLC byte 0xFE (accepted
by isValidDLC) and 255 further bytes.  uint8_t expectedLength = 0xFE + 2
wraps to 0x00, so the accumulation loop steps bufferIndex through
1..255 — writing buffer[255] — and frame completion reads the checksum at
buffer[dlc + 1] = buffer[255]; the buffer has valid indices 0..254 only. -/
def c3FailingInput : List Nat := syncPattern ++ [0xFE] ++ List.replicate 255 0

/-- C3: on the failing input, readSIDserialData performs an out-of-bounds
access of the 255-byte receive buffer (the instrumented oob flag of the
model becomes true), contradicting the claim that processing never goes
out of bounds. -/
theorem c3_oob_access :
    ((runSync initState c3FailingInput).1).oob = true := by decide

/-- The MODE enum (SAAB_HPD.h lines 82-91). -/
inductive MODE
  | MODE_UNKNOWN
  | MODE_AUX
  | MODE_FM1
  | MODE_FM2
  | MODE_AM
  | MODE_CD
  | MODE_CDC
  | MODE_CDX
deriving DecidableEq, Repr

/-- processMode (SAAB_HPD.cpp lines 405-428): classifies a command 0x11
frame by fixed data-byte signatures; any other frame leaves the mode
unchanged.  Reads of data[i] beyond the dlc - 2 received bytes see the
memset 0x00, which getD's default reproduces. -/
def processMode (currentMode : MODE) (f : SerialFrame) : MODE :=
  if f.command = 0x11 then
    if f.data.getD 0 0 = 0x01 ∧ f.data.getD 2 0 = 0x02
        ∧ f.data.getD 3 0 = 0xCF then
      MODE.MODE_CD
    else if f.data.getD 0 0 = 0x01 ∧ f.data.getD 2 0 = 0x02
        ∧ f.data.getD 3 0 = 0xCD then
      MODE.MODE_AUX
    else if f.data.getD 0 0 = 0x01 ∧ f.data.getD 2 0 = 0x02
        ∧ f.data.getD 3 0 = 0xD2 then
      MODE.MODE_CDX
    else if f.data.getD 0 0 = 0x01 ∧ f.data.getD 2 0 = 0x02
        ∧ f.data.getD 3 0 = 0xD0 then
      MODE.MODE_CDC
    else if f.data.getD 0 0 = 0x00 ∧ f.data.getD 2 0 = 0x00
        ∧ f.data.getD 3 0 = 0x13 then
      if f.data.getD 6 0 = 0x46 ∧ f.data.getD 7 0 = 0x4D then
        if f.data.getD 8 0 = 0x31 then MODE.MODE_FM1
        else if f.data.getD 8 0 = 0x32 then MODE.MODE_FM2
        else currentMode
      else if f.data.getD 6 0 = 0x41 ∧ f.data.getD 7 0 = 0x4D then
        MODE.MODE_AM
      else currentMode
    else currentMode
  else currentMode

/-- Repeated host calls of poll (SAAB_HPD.cpp lines 392-403) over a byte
stream: every successfully decoded frame is passed to processMode to
update currentMode (the frameCallback is an external collaborator and is
not modelled). -/
def pollDrive (m : MODE) (s : SyncState) : List Nat → MODE × SyncState
  | [] => (m, s)
  | b :: rest =>
    match step s b with
    | (s1, none) => pollDrive m s1 rest
    | (s1, some f) => pollDrive (processMode m f) s1 rest

/-- The wait loop of sendSidData (SAAB_HPD.cpp lines 70-84) instrumented
with the driver's currentMode: the loop body contains no processMode
call, so the mode is merely carried through. -/
def sendSidDataRun (m : MODE) (s : SyncState) :
    List Nat → Int × MODE × SyncState
  | [] => (ERROR_TIMEOUT, m, s)
  | b :: rest =>
    match step s b with
    | (s1, none) => sendSidDataRun m s1 rest
    | (s1, some f) =>
      if f.command = 0xFF ∧ f.dlc = 2 then (ERROR_OK, m, s1)
      else if f.command = 0xFE then (((f.data.getD 0 0 : Nat) : Int), m, s1)
      else sendSidDataRun m s1 rest

/-- A CD-signature display frame (command 0x11, data 01 00 02 CF) behind
the sync pattern, as it would arrive while sendSidData waits for its
acknowledgement. -/
def c9Input : List Nat :=
  syncPattern ++ [0x06, 0x11, 0x00, 0x01, 0x00, 0x02, 0xCF, 0xE9]

/-- C9 counterexample: while sendSidData waits for its acknowledgement it
decodes the CD-signature frame, but does not pass it to processMode: the
mode stays MODE_UNKNOWN, although processMode applied to the decoded
frames would yield MODE_CD. -/
theorem c9_counterexample :
    (sendSidDataRun MODE.MODE_UNKNOWN initState c9Input).2.1
        = MODE.MODE_UNKNOWN
  ∧ ((runSync initState c9Input).2).length = 1
  ∧ ((runSync initState c9Input).2).foldl processMode MODE.MODE_UNKNOWN
        = MODE.MODE_CD := by
  exact ⟨by decide, by decide, by decide⟩

/-- C9 (amended): processMode is invoked on every frame decoded through
poll — repeated polling folds processMode over exactly the decoded
frames — but frames decoded inside sendSidData's acknowledgement wait
never update the mode: the wait loop only checks for 0xFF/0xFE and
discards everything else. -/
theorem c9_mode_tracking :
    (∀ (m : MODE) (s : SyncState) (input : List Nat),
        pollDrive m s input
          = (((runSync s input).2).foldl processMode m, (runSync s input).1))
  ∧ (∀ (m : MODE) (s : SyncState) (input : List Nat),
        (sendSidDataRun m s input).2.1 = m) := by
  constructor
  · intro m s input
    induction input generalizing m s with
    | nil => simp [pollDrive, runSync]
    | cons b rest ih =>
      rcases hstep : step s b with ⟨s1, fo⟩
      cases fo with
      | none =>
        rw [pollDrive, hstep, runSync, hstep]
        dsimp only
        exact ih m s1
      | some f =>
        rw [pollDrive, hstep, runSync, hstep]
        dsimp only
        rw [List.foldl_cons]
        exact ih (processMode m f) s1
  · intro m s input
    induction input generalizing m s with
    | nil => rfl
    | cons b rest ih =>
      rcases hstep : step s b with ⟨s1, fo⟩
      cases fo with
      | none =>
        rw [sendSidDataRun, hstep]
        exact ih m s1
      | some f =>
        rw [sendSidDataRun, hstep]
        dsimp only
        by_cases h1 : f.command = 0xFF ∧ f.dlc = 2
        · rw [if_pos h1]
        · rw [if_neg h1]
          by_cases h2 : f.command = 0xFE
          · rw [if_pos h2]
          · rw [if_neg h2]
            exact ih m s1

/-- The text-copy loop of makeRegion and changeRegion (SAAB_HPD.cpp lines
268-275 and 295-302): while (text[i] != '\0' && i < cap) data[off + i] =
text[i], i++.  Returns the updated data and the final count i.  The
modelled text list ends where the C string's terminator sits. -/
def copyText (data : List Nat) (off cap : Nat) :
    List Nat → Nat → List Nat × Nat
  | [], i => (data, i)
  | b :: rest, i =>
    if b ≠ 0 ∧ i < cap then copyText (data.set (off + i) b) off cap rest (i + 1)
    else (data, i)

/-- makeRegion (SAAB_HPD.cpp lines 247-279): builds the command 0x10 frame
(base dlc 13; 11 fixed data bytes, xPos split LSB/MSB), copies the text
into data[11..] bounded by i < BUFFER_SIZE - 11 = 244, adds the copied
count to the uint8_t dlc, and hands the frame to sendSidData; these are
the bytes written to the serial link.  The uninitialized stack bytes of
frame.data are modelled as 0 (never read on the paths proved about). -/
def makeRegionBytes (regionID subRegionID0 subRegionID1 xPos yPos width
    fontStyle : Nat) (text : List Nat) : List Nat :=
  let base := (List.replicate 252 0).set 0 regionID |>.set 1 0
    |>.set 2 subRegionID0 |>.set 3 subRegionID1 |>.set 4 1
    |>.set 5 fontStyle |>.set 6 width |>.set 7 0
    |>.set 8 (xPos % 256) |>.set 9 (xPos / 256 % 256) |>.set 10 yPos
  let r := copyText base 11 (255 - 11) text 0
  sendSidDataBytes ((13 + r.2) % 256) 0x10 r.1

/-- changeRegion (SAAB_HPD.cpp lines 281-306): builds the command 0x11
frame (base dlc 8; 6 fixed data bytes), copies the text into data[6..]
bounded by i < BUFFER_SIZE - 6 = 249, adds the copied count to the
uint8_t dlc, and hands the frame to sendSidData. -/
def changeRegionBytes (regionID subRegionID0 subRegionID1 visible style
    : Nat) (text : List Nat) : List Nat :=
  let base := (List.replicate 252 0).set 0 regionID |>.set 1 0
    |>.set 2 subRegionID0 |>.set 3 subRegionID1 |>.set 4 visible
    |>.set 5 style
  let r := copyText base 6 (255 - 6) text 0
  sendSidDataBytes ((8 + r.2) % 256) 0x11 r.1

theorem sendSidDataBytes_ne_nil (dlc cmd : Nat) (data : List Nat) :
    sendSidDataBytes dlc cmd data ≠ [] := by
  simp [sendSidDataBytes]

theorem copyText_count (cap : Nat) : ∀ (text data : List Nat) (off i : Nat),
    i ≤ cap → (copyText data off cap text i).2 = min (i + cstrlen text) cap := by
  intro text
  induction text with
  | nil =>
    intro data off i hi
    simp [copyText, cstrlen, Nat.min_eq_left hi]
  | cons b rest ih =>
    intro data off i hi
    by_cases hb : b = 0
    · rw [copyText, if_neg (by simp [hb])]
      simp [cstrlen, hb, Nat.min_eq_left hi]
    · by_cases hcap : i < cap
      · rw [copyText, if_pos ⟨hb, hcap⟩]
        rw [ih _ _ (i + 1) (by omega)]
        rw [show i + 1 + cstrlen rest = i + cstrlen (b :: rest) from by
          simp [cstrlen, hb]; omega]
      · rw [copyText, if_neg (by simp [hcap])]
        have hieq : i = cap := by omega
        subst hieq
        simp [cstrlen, hb]

/-- C8 counterexample: a 245-byte text exceeds makeRegion's remaining
frame capacity (241 bytes: dlc 13 + i must stay at most 254 and the data
array holds 252 bytes), yet makeRegion does not fail: the copy loop
truncates at 244 bytes, the uint8_t dlc wraps to (13 + 244) mod 256 = 1,
and the 3-byte frame [0x01, 0x10, 0x11] is written to the link. -/
theorem c8_counterexample :
    241 < (List.replicate 245 0x41).length
  ∧ makeRegionBytes 0x01 0x00 0x3C 187 34 8 0x01 (List.replicate 245 0x41)
      = [0x01, 0x10, 0x11] := by
  exact ⟨by decide, by decide⟩

/-- C8 (amended): there is no BufferOverflow rejection anywhere in the
encode path (the ERROR enum has no such value): makeRegion and
changeRegion always write a frame — the byte list handed to the serial
link is never empty — and the text copy is silently bounded at
BUFFER_SIZE - 11 = 244 resp. BUFFER_SIZE - 6 = 249 bytes (the copied
count is min(strlen(text), cap)); an overlong text wraps the uint8_t dlc,
e.g. a 249-byte text makes changeRegion send [0x01, 0x11, 0x12]. -/
theorem c8_no_overflow_rejection :
    (∀ rid s0 s1 x y w fs text,
        makeRegionBytes rid s0 s1 x y w fs text ≠ [])
  ∧ (∀ rid s0 s1 v st text, changeRegionBytes rid s0 s1 v st text ≠ [])
  ∧ (∀ base off cap text,
        (copyText base off cap text 0).2 = min (cstrlen text) cap)
  ∧ changeRegionBytes 0x01 0x02 0xDF 0x02 0x00 (List.replicate 249 0x42)
      = [0x01, 0x11, 0x12] := by
  refine ⟨?_, ?_, ?_, by decide⟩
  · intro rid s0 s1 x y w fs text
    exact sendSidDataBytes_ne_nil _ _ _
  · intro rid s0 s1 v st text
    exact sendSidDataBytes_ne_nil _ _ _
  · intro base off cap text
    have h := copyText_count cap text base off 0 (by omega)
    simpa using h

theorem range_map_getElem_opt_take (l : List Nat) (n : Nat) (h : n ≤ l.length) :
    (List.range n).map (fun i => l[i]?.getD 0) = l.take n := by
  have hr := range_map_getD_take l n h
  simpa [List.getD_eq_getElem?_getD] using hr

theorem cstrlen_lt_of_mem (l : List Nat) (h : 0 ∈ l) :
    cstrlen l < l.length := by
  induction l with
  | nil => simp at h
  | cons b rest ih =>
    by_cases hb : b = 0
    · simp [cstrlen, hb]
    · rcases List.mem_cons.mp h with h1 | h2
      · exact absurd h1.symm hb
      · have := ih h2
        simp [cstrlen, hb]
        omega

/-- C10: entering sendSidData with frame.dlc = 0 transmits DLC
2 + strlen(frame.data) — 2 plus the number of data bytes preceding the
first 0x00 — and the transmitted payload is exactly that NUL-terminated
prefix, so everything from an interior 0x00 byte onward is excluded.
The hypotheses state that the data array contains a 0x00 (so the C
strlen terminates inside the array) and fits the struct's 252 bytes. -/
theorem c10_dlc_strlen (cmd : Nat) (data : List Nat)
    (h0 : 0 ∈ data) (h1 : data.length ≤ 252) :
    sendSidDataBytes 0 cmd data
      = [2 + (data.takeWhile (fun b => !(b == 0))).length, cmd, 0]
        ++ data.takeWhile (fun b => !(b == 0))
        ++ [(2 + (data.takeWhile (fun b => !(b == 0))).length + cmd
              + (data.takeWhile (fun b => !(b == 0))).sum) % 256] := by
  have hlt : cstrlen data < data.length := cstrlen_lt_of_mem data h0
  have hmod : (2 + cstrlen data) % 256 = 2 + cstrlen data :=
    Nat.mod_eq_of_lt (by omega)
  have hlen : (data.takeWhile (fun b => !(b == 0))).length = cstrlen data := by
    rw [takeWhile_eq_take_cstrlen, List.length_take,
      Nat.min_eq_left (by omega)]
  have h2 : 2 + cstrlen data - 2 = cstrlen data := by omega
  rw [hlen, takeWhile_eq_take_cstrlen]
  simp only [sendSidDataBytes, hmod, h2,
    range_map_getD_take data (cstrlen data) (by omega), sumData_eq_sum_take,
    if_pos (by omega : (0 : Nat) = 0), if_pos (Nat.le_add_right 2 (cstrlen data))]
  simp [range_map_getElem_opt_take data (cstrlen data) (by omega)]

/-- Witness for c10_dlc_strlen: data [0x41, 0x42, 0x00, 0x43] has an
interior 0x00, so the transmitted DLC is 2 + 2 = 4 and only 0x41 0x42 are
sent; 0x43 is excluded. -/
theorem c10_dlc_strlen_witness :
    sendSidDataBytes 0 0x20 [0x41, 0x42, 0x00, 0x43]
      = [0x04, 0x20, 0x00, 0x41, 0x42, 0xA7] :=
  c10_dlc_strlen 0x20 [0x41, 0x42, 0x00, 0x43] (by decide) (by decide)
